import Mathlib

/-!
Verification of the `APIClient` HTTP wrapper, the query-parameter
serialization, and `PricingCalculator.calculate_order_price` from
`examples.py` (caspio-pricing-proxy examples), as a shallow embedding.

The network is modelled by an explicit `Outcome` parameter: either the
underlying `requests.Session.request` call raises a transport-level
`RequestException` (no response was received), or it returns a final
`HttpResponse` (after any redirect handling inside the library).  The
embedded `APIClient.request` is then a pure function from that outcome to
the observable behaviour of the Python method: the wire request it built,
the value returned or the exception propagated, and the lines printed.
-/

/-- JSON values, as produced by `response.json()` (`json.loads`).  Numeric
literals are modelled as integers; the client code never computes with
them, it only passes them through.  Objects are association lists; `json.loads`
produces one entry per key. -/
inductive Json where
  | null : Json
  | bool (b : Bool) : Json
  | num (n : Int) : Json
  | str (s : String) : Json
  | arr (elems : List Json) : Json
  | obj (fields : List (String × Json)) : Json

mutual

/-- Python `repr` of a parsed-JSON value (used by `str` on containers). -/
def pyRepr : Json → String
  | Json.null => "None"
  | Json.bool true => "True"
  | Json.bool false => "False"
  | Json.num n => toString n
  | Json.str s => "'" ++ s ++ "'"
  | Json.arr elems => "[" ++ String.intercalate ", " (pyReprList elems) ++ "]"
  | Json.obj fields =>
      "\x7b" ++ String.intercalate ", " (pyReprFields fields) ++ "\x7d"

/-- `repr` of each element of a parsed-JSON array. -/
def pyReprList : List Json → List String
  | [] => []
  | v :: rest => pyRepr v :: pyReprList rest

/-- `repr` of each `key: value` entry of a parsed-JSON object. -/
def pyReprFields : List (String × Json) → List String
  | [] => []
  | f :: rest => ("'" ++ f.1 ++ "': " ++ pyRepr f.2) :: pyReprFields rest

end

/-- Python `str` of a parsed-JSON value, as used when the extracted error
message is interpolated into the log line `f'... {error_msg}'`. -/
def pyStr : Json → String
  | Json.str s => s
  | v => pyRepr v

/-- The body of an HTTP response: empty text, text that parses as JSON, or
non-empty text on which `response.json()` raises a decode error. -/
inductive Body where
  | empty : Body
  | json (v : Json) : Body
  | malformed (raw : String) : Body

/-- A final HTTP response as returned by `requests.Session.request`. -/
structure HttpResponse where
  statusCode : Nat
  reason : String
  body : Body

/-- The outcome of the underlying `session.request` call: a transport-level
`requests.exceptions.RequestException` (connection refused, timeout, DNS
failure, ... — `cause` is its string rendering), or a final response. -/
inductive Outcome where
  | failure (cause : String) : Outcome
  | response (resp : HttpResponse) : Outcome

/-- A query-parameter value in the `params` mapping passed to `requests`:
either a single string or a list of strings (`requests` also accepts
numbers, which it stringifies; the model works with the strings sent on the
wire, matching the spec's "string → scalar-or-list" data model). -/
inductive ParamValue where
  | scalar (s : String) : ParamValue
  | list (elems : List String) : ParamValue
  deriving DecidableEq, Repr

/-- An ordered query-parameter mapping (a Python dict: keys are distinct,
insertion order preserved). -/
abbrev Params := List (String × ParamValue)

/-- Errors propagated by `APIClient.request`.

* `httpError` — the `requests.exceptions.HTTPError` raised by
  `raise_for_status` and re-raised by the first `except` clause; it carries
  the response (`e.response`) and `message` records the `error_msg` the
  handler computed for it (the message of the client's error contract,
  printed in the log line).
* `decodeError` — the `requests.exceptions.JSONDecodeError` raised by
  `response.json()` on a non-JSON body (a `RequestException`, caught,
  logged and re-raised by the second `except` clause).
* `transportError` — any other `requests.exceptions.RequestException`
  (connection refused, timeout, DNS failure), logged and re-raised by the
  second `except` clause. -/
inductive RequestError where
  | httpError (statusCode : Nat) (reason : String) (body : Body) (message : String) : RequestError
  | decodeError (raw : String) : RequestError
  | transportError (cause : String) : RequestError

/-- The HTTP request handed to `session.request` before the outcome is
known: method, URL (base URL with the endpoint appended), optional query
parameters, optional JSON body. -/
structure WireRequest where
  method : String
  url : String
  queryParams : Option Params
  jsonBody : Option Json

/-- The observable behaviour of one `APIClient.request` call: the wire
request it issued, the value returned or the error raised, and the lines
printed to the log. -/
structure RequestResult where
  sent : WireRequest
  result : Except RequestError Json
  log : List String

/-- Synthesized error message `f'HTTP {e.response.status_code}: {e.response.reason}'`. -/
def synthMessage (statusCode : Nat) (reason : String) : String :=
  "HTTP " ++ toString statusCode ++ ": " ++ reason

/-- The `message` entry extracted from an error response body, when the body
parses as a JSON object with a `message` key (`error_data = e.response.json()`
then `if 'message' in error_data`).  In every other case — empty or
malformed body (`.json()` raises), non-object JSON (`in` raises `TypeError`
or the later indexing does), object without the key — the bare
`except: pass` leaves the synthesized message in place, so the result is
`none`. -/
def extractMessage : Body → Option Json
  | Body.json (Json.obj fields) => fields.lookup "message"
  | _ => none

/-- The `error_msg` computed by the `HTTPError` handler: the `message`
field of the JSON error payload when present, else the synthesized
`HTTP {status}: {reason}`. -/
def httpErrorMessage (resp : HttpResponse) : String :=
  match extractMessage resp.body with
  | some v => pyStr v
  | none => synthMessage resp.statusCode resp.reason

/-- The log line `f'API Request failed for {endpoint}: {error_msg}'`. -/
def failLogLine (endpoint msg : String) : String :=
  "API Request failed for " ++ endpoint ++ ": " ++ msg

/-- Stands for `str(e)` of the `JSONDecodeError` raised by `response.json()`
on non-JSON text; the exact wording comes from the `json` library and is
modelled opaquely from the raw body. -/
def decodeErrorMessage (raw : String) : String :=
  "JSONDecodeError: " ++ raw

namespace APIClient

/-- `APIClient.request` (examples.py lines 442-467), as a function of the
transport outcome.  `response.raise_for_status()` raises `HTTPError`
exactly when `400 <= status_code < 600` (its documented and implemented
behaviour); otherwise an empty body yields `{}`, a JSON body yields its
parsed value, and a non-JSON body makes `response.json()` raise a
`JSONDecodeError`, which `requests` (≥ 2.27) derives from
`RequestException`, so the second handler logs and re-raises it. -/
def request (baseUrl method endpoint : String) (queryParams : Option Params)
    (jsonBody : Option Json) (outcome : Outcome) : RequestResult :=
  let sent : WireRequest :=
    { method := method, url := baseUrl ++ endpoint,
      queryParams := queryParams, jsonBody := jsonBody }
  match outcome with
  | Outcome.failure cause =>
      { sent := sent, result := Except.error (RequestError.transportError cause),
        log := [failLogLine endpoint cause] }
  | Outcome.response resp =>
      if 400 ≤ resp.statusCode ∧ resp.statusCode < 600 then
        let msg := httpErrorMessage resp
        { sent := sent,
          result := Except.error
            (RequestError.httpError resp.statusCode resp.reason resp.body msg),
          log := [failLogLine endpoint msg] }
      else
        match resp.body with
        | Body.empty => { sent := sent, result := Except.ok (Json.obj []), log := [] }
        | Body.json v => { sent := sent, result := Except.ok v, log := [] }
        | Body.malformed raw =>
            { sent := sent, result := Except.error (RequestError.decodeError raw),
              log := [failLogLine endpoint (decodeErrorMessage raw)] }

/-- `APIClient.get`: `request('GET', endpoint, params=params)`. -/
def get (baseUrl endpoint : String) (params : Option Params) (outcome : Outcome) :
    RequestResult :=
  request baseUrl "GET" endpoint params none outcome

/-- `APIClient.post`: `request('POST', endpoint, json=data)`. -/
def post (baseUrl endpoint : String) (data : Option Json) (outcome : Outcome) :
    RequestResult :=
  request baseUrl "POST" endpoint none data outcome

/-- `APIClient.put`: `request('PUT', endpoint, json=data)`. -/
def put (baseUrl endpoint : String) (data : Option Json) (outcome : Outcome) :
    RequestResult :=
  request baseUrl "PUT" endpoint none data outcome

/-- `APIClient.delete`: `request('DELETE', endpoint)`. -/
def delete (baseUrl endpoint : String) (outcome : Outcome) : RequestResult :=
  request baseUrl "DELETE" endpoint none none outcome

end APIClient

/-- One pricing tier as returned by `/pricing-tiers`: the fields
`calculate_order_price` reads.  Quantity bounds are integers, the per-item
price is a rational (Python floats are modelled as rationals; the claims
concern the arithmetic structure, not rounding). -/
structure Tier where
  minQuantity : Int
  maxQuantity : Int
  price : Rat
  deriving DecidableEq, Repr

/-- The dict returned by `PricingCalculator.calculate_order_price`. -/
structure OrderPrice where
  baseCostPerItem : Rat
  decorationCostPerItem : Rat
  quantity : Int
  totalCost : Rat
  deriving DecidableEq, Repr

/-- The tier-selection loop of `calculate_order_price`:
`for tier in pricing_tiers: if tier['minQuantity'] <= quantity <= tier['maxQuantity']: applicable_tier = tier; break`. -/
def findApplicableTier (tiers : List Tier) (quantity : Int) : Option Tier :=
  match tiers with
  | [] => none
  | tier :: rest =>
      if tier.minQuantity ≤ quantity ∧ quantity ≤ tier.maxQuantity then some tier
      else findApplicableTier rest quantity

/-- Python truthiness of the optional `stitch_count` argument, as tested by
`if decoration_type == 'Embroidery' and stitch_count:` — `None` and `0` are
falsy. -/
def stitchCountTruthy : Option Int → Bool
  | none => false
  | some n => n ≠ 0

/-- `PricingCalculator.calculate_order_price` (examples.py lines 315-351).
The three HTTP lookups are passed in as data: `baseCosts` is the dict
returned by `/base-item-costs` (size → cost), `tiers` the list returned by
`/pricing-tiers` for `decorationType`, and `embroideryCost n` the `cost`
entry returned by `/embroidery-costs` for item type `'Shirt'` and stitch
count `n`. -/
def calculate_order_price (baseCosts : List (String × Rat)) (tiers : List Tier)
    (embroideryCost : Int → Rat) (decorationType : String) (quantity : Int)
    (stitchCount : Option Int) : OrderPrice :=
  let applicableTier := findApplicableTier tiers quantity
  let tierCost : Rat :=
    match applicableTier with
    | some tier => tier.price
    | none => 0
  let decorationCost : Rat :=
    if decorationType = "Embroidery" ∧ stitchCountTruthy stitchCount then
      embroideryCost (stitchCount.getD 0)
    else tierCost
  let avgBaseCost : Rat :=
    if baseCosts = [] then 0
    else (baseCosts.map Prod.snd).sum / (baseCosts.length : Rat)
  { baseCostPerItem := avgBaseCost,
    decorationCostPerItem := decorationCost,
    quantity := quantity,
    totalCost := (avgBaseCost + decorationCost) * (quantity : Rat) }

/-- UTF-8 encoding of one character (`str.encode('utf-8')`, per character). -/
def utf8Bytes (c : Char) : List Nat :=
  let n := c.toNat
  if n < 0x80 then [n]
  else if n < 0x800 then [0xC0 + n / 64, 0x80 + n % 64]
  else if n < 0x10000 then [0xE0 + n / 4096, 0x80 + n / 64 % 64, 0x80 + n % 64]
  else [0xF0 + n / 262144, 0x80 + n / 4096 % 64, 0x80 + n / 64 % 64, 0x80 + n % 64]

/-- UTF-8 encoding of a character sequence. -/
def utf8Encode (cs : List Char) : List Nat :=
  cs.flatMap utf8Bytes

/-- Whether a byte is in `urllib.parse.quote`'s always-safe set
(ASCII letters, digits, `_`, `.`, `-`, `~`; `urlencode` quotes with
`safe=''`). -/
def safeByte (b : Nat) : Bool :=
  (48 ≤ b ∧ b ≤ 57) ∨ (65 ≤ b ∧ b ≤ 90) ∨ (97 ≤ b ∧ b ≤ 122) ∨
    b = 45 ∨ b = 46 ∨ b = 95 ∨ b = 126

/-- Uppercase hexadecimal digit, as in `quote`'s `%XX` escapes. -/
def hexDigitChar (n : Nat) : Char :=
  if n < 10 then Char.ofNat (48 + n) else Char.ofNat (55 + n)

/-- Value of a hexadecimal digit character (upper or lower case accepted,
as `unquote` does). -/
def hexDigitVal : Char → Option Nat
  | c =>
    let n := c.toNat
    if 48 ≤ n ∧ n ≤ 57 then some (n - 48)
    else if 65 ≤ n ∧ n ≤ 70 then some (n - 55)
    else if 97 ≤ n ∧ n ≤ 102 then some (n - 87)
    else none

/-- `quote_plus` applied to one byte: space becomes `+`, safe bytes stand
for themselves, every other byte becomes `%XX`. -/
def encodeByteChars (b : Nat) : List Char :=
  if b = 32 then ['+']
  else if safeByte b then [Char.ofNat b]
  else ['%', hexDigitChar (b / 16), hexDigitChar (b % 16)]

/-- Percent-encoding of a byte sequence (`quote_plus` on the UTF-8 bytes). -/
def percentEncodeBytes (bs : List Nat) : List Char :=
  bs.flatMap encodeByteChars

/-- `urllib.parse.quote_plus` of a string with `safe=''`: UTF-8 encode,
then percent-encode each byte. -/
def quoteChars (cs : List Char) : List Char :=
  percentEncodeBytes (utf8Encode cs)

/-- Percent-decoding of an encoded character sequence back to bytes:
`%XX` escapes, `+` for space, plain ASCII characters for themselves.
This is the specification-side inverse used to state the round-trip. -/
def percentDecode : List Char → Option (List Nat)
  | [] => some []
  | c :: rest =>
    if c = '%' then
      match rest with
      | h1 :: h2 :: rest2 =>
        match hexDigitVal h1, hexDigitVal h2 with
        | some a, some b => (percentDecode rest2).map (fun bs => (16 * a + b) :: bs)
        | _, _ => none
      | _ => none
    else if c = '+' then (percentDecode rest).map (fun bs => 32 :: bs)
    else if c.toNat < 128 then (percentDecode rest).map (fun bs => c.toNat :: bs)
    else none

/-- Decode a two-byte UTF-8 sequence whose leading byte is `b0`. -/
def utf8DecodeTwo (b0 : Nat) : List Nat → Option (Char × List Nat)
  | b1 :: rest1 =>
    if 0x80 ≤ b1 ∧ b1 < 0xC0 then
      let n := (b0 - 0xC0) * 64 + (b1 - 0x80)
      if 0x80 ≤ n then some (Char.ofNat n, rest1) else none
    else none
  | [] => none

/-- Decode a three-byte UTF-8 sequence whose leading byte is `b0`. -/
def utf8DecodeThree (b0 : Nat) : List Nat → Option (Char × List Nat)
  | b1 :: b2 :: rest2 =>
    if (0x80 ≤ b1 ∧ b1 < 0xC0) ∧ (0x80 ≤ b2 ∧ b2 < 0xC0) then
      let n := (b0 - 0xE0) * 4096 + (b1 - 0x80) * 64 + (b2 - 0x80)
      if 0x800 ≤ n ∧ Nat.isValidChar n then some (Char.ofNat n, rest2) else none
    else none
  | _ => none

/-- Decode a four-byte UTF-8 sequence whose leading byte is `b0`. -/
def utf8DecodeFour (b0 : Nat) : List Nat → Option (Char × List Nat)
  | b1 :: b2 :: b3 :: rest3 =>
    if (0x80 ≤ b1 ∧ b1 < 0xC0) ∧ (0x80 ≤ b2 ∧ b2 < 0xC0) ∧ (0x80 ≤ b3 ∧ b3 < 0xC0) then
      let n := (b0 - 0xF0) * 262144 + (b1 - 0x80) * 4096 + (b2 - 0x80) * 64 + (b3 - 0x80)
      if 0x10000 ≤ n ∧ Nat.isValidChar n then some (Char.ofNat n, rest3) else none
    else none
  | _ => none

/-- Decode the first UTF-8 character of a byte sequence, returning it and
the remaining bytes. -/
def utf8DecodeOne : List Nat → Option (Char × List Nat)
  | [] => none
  | b0 :: rest =>
    if b0 < 0x80 then some (Char.ofNat b0, rest)
    else if b0 < 0xC0 then none
    else if b0 < 0xE0 then utf8DecodeTwo b0 rest
    else if b0 < 0xF0 then utf8DecodeThree b0 rest
    else if b0 < 0xF8 then utf8DecodeFour b0 rest
    else none

theorem utf8DecodeTwo_length (b0 : Nat) (l : List Nat) (c : Char) (r : List Nat)
    (h : utf8DecodeTwo b0 l = some (c, r)) : r.length ≤ l.length := by
  match l with
  | [] => simp [utf8DecodeTwo] at h
  | b1 :: rest1 =>
    rw [utf8DecodeTwo] at h
    split at h
    · simp only [] at h
      split at h
      · simp at h
        simp [h.2]
      · exact absurd h (by simp)
    · exact absurd h (by simp)

theorem utf8DecodeThree_length (b0 : Nat) (l : List Nat) (c : Char) (r : List Nat)
    (h : utf8DecodeThree b0 l = some (c, r)) : r.length ≤ l.length := by
  match l with
  | [] | [_] => simp [utf8DecodeThree] at h
  | b1 :: b2 :: rest2 =>
    rw [utf8DecodeThree] at h
    split at h
    · simp only [] at h
      split at h
      · simp at h
        simp [h.2]
        omega
      · exact absurd h (by simp)
    · exact absurd h (by simp)

theorem utf8DecodeFour_length (b0 : Nat) (l : List Nat) (c : Char) (r : List Nat)
    (h : utf8DecodeFour b0 l = some (c, r)) : r.length ≤ l.length := by
  match l with
  | [] | [_] | [_, _] => simp [utf8DecodeFour] at h
  | b1 :: b2 :: b3 :: rest3 =>
    rw [utf8DecodeFour] at h
    split at h
    · simp only [] at h
      split at h
      · simp at h
        simp [h.2]
        omega
      · exact absurd h (by simp)
    · exact absurd h (by simp)

theorem utf8DecodeOne_length (l : List Nat) (c : Char) (r : List Nat)
    (h : utf8DecodeOne l = some (c, r)) : r.length < l.length := by
  match l with
  | [] => simp [utf8DecodeOne] at h
  | b0 :: rest =>
    rw [utf8DecodeOne] at h
    split at h
    · simp at h
      simp [h.2]
    · split at h
      · exact absurd h (by simp)
      · split at h
        · have := utf8DecodeTwo_length b0 rest c r h
          simp
          omega
        · split at h
          · have := utf8DecodeThree_length b0 rest c r h
            simp
            omega
          · split at h
            · have := utf8DecodeFour_length b0 rest c r h
              simp
              omega
            · exact absurd h (by simp)

/-- UTF-8 decoding of a byte sequence (specification-side inverse):
repeatedly decode the first character. -/
def utf8Decode (l : List Nat) : Option (List Char) :=
  if l = [] then some []
  else
    match h : utf8DecodeOne l with
    | some cr => (utf8Decode cr.2).map (fun cs => cr.1 :: cs)
    | none => none
termination_by l.length
decreasing_by
  exact utf8DecodeOne_length l cr.1 cr.2 (by rw [h])

/-- Inverse of `quoteChars`: percent-decode to bytes, then UTF-8 decode. -/
def unquoteChars (cs : List Char) : Option (List Char) :=
  (percentDecode cs).bind utf8Decode

/-- One `key=value` piece of the encoded query string, both sides quoted
(`urlencode` quotes keys and values alike). -/
def pieceChars (k v : String) : List Char :=
  quoteChars k.data ++ '=' :: quoteChars v.data

/-- The flat `(key, value)` pair list `urlencode(..., doseq=True)` walks: a
scalar entry contributes one pair, a list entry one pair per element (the
repeated-key serialization; an empty list contributes nothing). -/
def flatPairs (ps : Params) : List (String × String) :=
  ps.flatMap (fun p =>
    match p.2 with
    | ParamValue.scalar s => [(p.1, s)]
    | ParamValue.list ss => ss.map (fun s => (p.1, s)))

/-- The encoded query string built by `requests` from the `params` mapping:
the `&`-join of the quoted `key=value` pieces. -/
def encodeParams (ps : Params) : String :=
  String.mk (List.intercalate ['&'] ((flatPairs ps).map (fun kv => pieceChars kv.1 kv.2)))

/-- The full URL `requests` sends the request to: the composed URL plus
`?` and the encoded query string when there are parameters to send. -/
def fullUrl (w : WireRequest) : String :=
  match w.queryParams with
  | none => w.url
  | some ps =>
      if encodeParams ps = "" then w.url
      else w.url ++ "?" ++ encodeParams ps

/-- Parse one `key=value` piece of a query string (specification-side
decoder): split at `=`, unquote both sides. -/
def parsePiece (piece : List Char) : Option (String × String) :=
  match piece.splitOn '=' with
  | [kq, vq] =>
    match unquoteChars kq, unquoteChars vq with
    | some k, some v => some (String.mk k, String.mk v)
    | _, _ => none
  | _ => none

/-- Parse every piece of a split query string, failing if any piece fails. -/
def parsePieces : List (List Char) → Option (List (String × String))
  | [] => some []
  | p :: rest =>
    match parsePiece p, parsePieces rest with
    | some kv, some kvs => some (kv :: kvs)
    | _, _ => none

/-- The values a key takes in a flat pair list, in order. -/
def valuesFor (k : String) (l : List (String × String)) : List String :=
  l.filterMap (fun kv => if kv.1 = k then some kv.2 else none)

/-- The distinct keys of a list, in order of first occurrence. -/
def dedupKeys : List String → List String
  | [] => []
  | k :: rest => k :: dedupKeys (rest.filter (fun k2 => k2 ≠ k))
termination_by l => l.length
decreasing_by
  simp only [List.length_cons]
  exact Nat.lt_succ_of_le (List.length_filter_le _ _)

/-- Rebuild a mapping value from the occurrences of a key: one occurrence
gives a scalar, several give a list. -/
def mkParamValue : List String → ParamValue
  | [s] => ParamValue.scalar s
  | ss => ParamValue.list ss

/-- Group a flat pair list back into a `string → scalar-or-list` mapping,
keys in order of first occurrence. -/
def groupPairs (l : List (String × String)) : Params :=
  (dedupKeys (l.map Prod.fst)).map (fun k => (k, mkParamValue (valuesFor k l)))

/-- Decode a query string back to a parameter mapping (specification-side
decoder for the round-trip property): split on `&`, parse each piece,
group repeated keys. -/
def decodeQuery (query : String) : Option Params :=
  (parsePieces (query.data.splitOn '&')).map groupPairs

/-- The message the client associates with a propagated error: the computed
`error_msg` for an HTTP error, `str(e)` for the other two `except` paths. -/
def errorMessage : RequestError → String
  | RequestError.httpError _ _ _ message => message
  | RequestError.decodeError raw => decodeErrorMessage raw
  | RequestError.transportError cause => cause

theorem request_sent_eq (baseUrl method endpoint : String) (qp : Option Params)
    (jb : Option Json) (o : Outcome) :
    (APIClient.request baseUrl method endpoint qp jb o).sent =
      { method := method, url := baseUrl ++ endpoint,
        queryParams := qp, jsonBody := jb } := by
  cases o with
  | failure cause => rfl
  | response resp =>
    simp only [APIClient.request]
    split
    · rfl
    · cases resp.body <;> rfl

/-- C3: a 2xx response with a non-empty JSON body makes `request` return
exactly the parsed JSON structure. -/
theorem request_2xx_json_returns_parsed (baseUrl method endpoint : String)
    (qp : Option Params) (jb : Option Json) (s : Nat) (reason : String) (v : Json)
    (h2 : 200 ≤ s) (h3 : s < 300) :
    (APIClient.request baseUrl method endpoint qp jb
        (Outcome.response ⟨s, reason, Body.json v⟩)).result = Except.ok v := by
  have hn : ¬(400 ≤ s ∧ s < 600) := by omega
  simp [APIClient.request, hn]

theorem request_2xx_json_returns_parsed_witness :
    200 ≤ 200 ∧ 200 < 300 ∧
      (APIClient.request "https://caspio-pricing-proxy-ab30a049961a.herokuapp.com/api"
          "GET" "/products/search" none none
          (Outcome.response ⟨200, "OK", Body.json (Json.obj [("products", Json.arr [])])⟩)).result =
        Except.ok (Json.obj [("products", Json.arr [])]) :=
  ⟨by decide, by decide,
    request_2xx_json_returns_parsed _ _ _ _ _ 200 _ _ (by decide) (by decide)⟩

/-- C4: a 2xx response with an empty body makes `request` return the empty
structured object `{}`, never the JSON null value. -/
theorem request_2xx_empty_returns_empty_obj (baseUrl method endpoint : String)
    (qp : Option Params) (jb : Option Json) (s : Nat) (reason : String)
    (h2 : 200 ≤ s) (h3 : s < 300) :
    (APIClient.request baseUrl method endpoint qp jb
        (Outcome.response ⟨s, reason, Body.empty⟩)).result = Except.ok (Json.obj []) ∧
      Json.obj [] ≠ Json.null := by
  have hn : ¬(400 ≤ s ∧ s < 600) := by omega
  refine ⟨by simp [APIClient.request, hn], fun h => Json.noConfusion h⟩

theorem request_2xx_empty_returns_empty_obj_witness :
    200 ≤ 204 ∧ 204 < 300 ∧
      ((APIClient.request "https://caspio-pricing-proxy-ab30a049961a.herokuapp.com/api"
          "DELETE" "/artrequests/7" none none
          (Outcome.response ⟨204, "No Content", Body.empty⟩)).result = Except.ok (Json.obj []) ∧
        Json.obj [] ≠ Json.null) :=
  ⟨by decide, by decide,
    request_2xx_empty_returns_empty_obj _ _ _ _ _ 204 _ (by decide) (by decide)⟩

/-- C5: a transport-level failure (no response received) is signalled as a
`TransportError` carrying the underlying cause; the whole observable
behaviour is fixed — no body is parsed (the result is not a decode error
and no response data appears), the failure is logged once, and the single
call returns control immediately (no retry is modelled or performed). -/
theorem request_transport_failure_signals_transportError
    (baseUrl method endpoint : String) (qp : Option Params) (jb : Option Json)
    (cause : String) :
    APIClient.request baseUrl method endpoint qp jb (Outcome.failure cause) =
      { sent := { method := method, url := baseUrl ++ endpoint,
                  queryParams := qp, jsonBody := jb },
        result := Except.error (RequestError.transportError cause),
        log := [failLogLine endpoint cause] } := rfl

/-- C7: a 2xx response whose non-empty body fails to parse as JSON is
signalled as a decode error that is logged with the endpoint and
propagated like every other error — it neither escapes unlogged nor turns
into a fallback return value. -/
theorem request_2xx_malformed_body_decode_error (baseUrl method endpoint : String)
    (qp : Option Params) (jb : Option Json) (s : Nat) (reason raw : String)
    (h2 : 200 ≤ s) (h3 : s < 300) :
    (APIClient.request baseUrl method endpoint qp jb
        (Outcome.response ⟨s, reason, Body.malformed raw⟩)).result =
        Except.error (RequestError.decodeError raw) ∧
      (APIClient.request baseUrl method endpoint qp jb
        (Outcome.response ⟨s, reason, Body.malformed raw⟩)).log =
        [failLogLine endpoint (decodeErrorMessage raw)] := by
  have hn : ¬(400 ≤ s ∧ s < 600) := by omega
  constructor <;> simp [APIClient.request, hn]

theorem request_2xx_malformed_body_decode_error_witness :
    200 ≤ 200 ∧ 200 < 300 ∧
      ((APIClient.request "https://caspio-pricing-proxy-ab30a049961a.herokuapp.com/api"
          "GET" "/inventory" none none
          (Outcome.response ⟨200, "OK", Body.malformed "<html>oops</html>"⟩)).result =
          Except.error (RequestError.decodeError "<html>oops</html>") ∧
        (APIClient.request "https://caspio-pricing-proxy-ab30a049961a.herokuapp.com/api"
          "GET" "/inventory" none none
          (Outcome.response ⟨200, "OK", Body.malformed "<html>oops</html>"⟩)).log =
          [failLogLine "/inventory" (decodeErrorMessage "<html>oops</html>")]) :=
  ⟨by decide, by decide,
    request_2xx_malformed_body_decode_error _ _ _ _ _ 200 _ _ (by decide) (by decide)⟩

/-- C8: each convenience wrapper fixes the method and forwards the
remaining parameters to `request` unchanged, and a request body is sent
only by the POST and PUT wrappers. -/
theorem wrappers_forward_to_request (baseUrl endpoint : String)
    (params : Option Params) (data : Option Json) (o : Outcome) :
    APIClient.get baseUrl endpoint params o =
        APIClient.request baseUrl "GET" endpoint params none o ∧
      APIClient.post baseUrl endpoint data o =
        APIClient.request baseUrl "POST" endpoint none data o ∧
      APIClient.put baseUrl endpoint data o =
        APIClient.request baseUrl "PUT" endpoint none data o ∧
      APIClient.delete baseUrl endpoint o =
        APIClient.request baseUrl "DELETE" endpoint none none o ∧
      (APIClient.get baseUrl endpoint params o).sent.jsonBody = none ∧
      (APIClient.delete baseUrl endpoint o).sent.jsonBody = none ∧
      (APIClient.post baseUrl endpoint data o).sent.jsonBody = data ∧
      (APIClient.put baseUrl endpoint data o).sent.jsonBody = data := by
  refine ⟨rfl, rfl, rfl, rfl, ?_, ?_, ?_, ?_⟩ <;>
    simp [APIClient.get, APIClient.post, APIClient.put, APIClient.delete, request_sent_eq]

/-- C1 counterexample: a non-2xx response (status 300) whose JSON body
contains a `message` field signals no error at all — `raise_for_status`
raises only for statuses 400–599, so `request` returns the parsed body as
a success and logs nothing. -/
theorem request_no_error_on_300_with_message_field :
    (APIClient.request "https://caspio-pricing-proxy-ab30a049961a.herokuapp.com/api"
        "GET" "/product-details" none none
        (Outcome.response ⟨300, "Multiple Choices",
          Body.json (Json.obj [("message", Json.str "Not found")])⟩)).result =
      Except.ok (Json.obj [("message", Json.str "Not found")]) ∧
    (APIClient.request "https://caspio-pricing-proxy-ab30a049961a.herokuapp.com/api"
        "GET" "/product-details" none none
        (Outcome.response ⟨300, "Multiple Choices",
          Body.json (Json.obj [("message", Json.str "Not found")])⟩)).log = [] ∧
    ¬(200 ≤ 300 ∧ 300 < 300) := by
  refine ⟨rfl, rfl, by decide⟩

/-- C1 (amended to error statuses 400–599): a 4xx/5xx response whose JSON
body contains a `message` field signals an HTTP error whose message is
that field's value and whose status code is the response's status code,
and that message is logged with the endpoint. -/
theorem request_error_status_message_extracted (baseUrl method endpoint : String)
    (qp : Option Params) (jb : Option Json) (s : Nat) (reason : String)
    (fields : List (String × Json)) (msg : String)
    (h4 : 400 ≤ s) (h6 : s < 600)
    (hm : fields.lookup "message" = some (Json.str msg)) :
    (APIClient.request baseUrl method endpoint qp jb
        (Outcome.response ⟨s, reason, Body.json (Json.obj fields)⟩)).result =
        Except.error (RequestError.httpError s reason (Body.json (Json.obj fields)) msg) ∧
      (APIClient.request baseUrl method endpoint qp jb
        (Outcome.response ⟨s, reason, Body.json (Json.obj fields)⟩)).log =
        [failLogLine endpoint msg] := by
  have hc : 400 ≤ s ∧ s < 600 := ⟨h4, h6⟩
  constructor <;>
    simp [APIClient.request, hc, httpErrorMessage, extractMessage, hm, pyStr]

/-- C1's concrete case: a 404 with body `{"message": "Not found"}` signals
an HTTP error with message `"Not found"` and status code 404. -/
theorem request_error_status_message_extracted_witness :
    400 ≤ 404 ∧ 404 < 600 ∧
      [("message", Json.str "Not found")].lookup "message" = some (Json.str "Not found") ∧
      ((APIClient.request "https://caspio-pricing-proxy-ab30a049961a.herokuapp.com/api"
          "GET" "/product-details" none none
          (Outcome.response ⟨404, "Not Found",
            Body.json (Json.obj [("message", Json.str "Not found")])⟩)).result =
          Except.error (RequestError.httpError 404 "Not Found"
            (Body.json (Json.obj [("message", Json.str "Not found")])) "Not found") ∧
        (APIClient.request "https://caspio-pricing-proxy-ab30a049961a.herokuapp.com/api"
          "GET" "/product-details" none none
          (Outcome.response ⟨404, "Not Found",
            Body.json (Json.obj [("message", Json.str "Not found")])⟩)).log =
          [failLogLine "/product-details" "Not found"]) :=
  ⟨by decide, by decide, by rfl,
    request_error_status_message_extracted _ _ _ _ _ 404 _ _ _
      (by decide) (by decide) (by rfl)⟩

/-- C2 counterexample: a non-2xx response (status 304, empty body) signals
no error and no synthesized `"HTTP 304: Not Modified"` message —
`raise_for_status` raises only for 400–599, so `request` returns `{}`. -/
theorem request_no_error_on_304_empty_body :
    (APIClient.request "https://caspio-pricing-proxy-ab30a049961a.herokuapp.com/api"
        "GET" "/order-dashboard" none none
        (Outcome.response ⟨304, "Not Modified", Body.empty⟩)).result =
      Except.ok (Json.obj []) ∧
    (APIClient.request "https://caspio-pricing-proxy-ab30a049961a.herokuapp.com/api"
        "GET" "/order-dashboard" none none
        (Outcome.response ⟨304, "Not Modified", Body.empty⟩)).log = [] ∧
    ¬(200 ≤ 304 ∧ 304 < 300) := by
  refine ⟨rfl, rfl, by decide⟩

/-- C2 (amended to error statuses 400–599): a 4xx/5xx response whose body
is empty, non-JSON, non-object JSON, or a JSON object without a `message`
field — exactly the cases where `extractMessage` yields nothing, the
secondary decode failure being swallowed by the bare `except: pass` —
signals an HTTP error whose message is the synthesized
`"HTTP {status}: {reason}"`, which is logged with the endpoint. -/
theorem request_error_status_message_synthesized (baseUrl method endpoint : String)
    (qp : Option Params) (jb : Option Json) (s : Nat) (reason : String) (body : Body)
    (h4 : 400 ≤ s) (h6 : s < 600)
    (hm : extractMessage body = none) :
    (APIClient.request baseUrl method endpoint qp jb
        (Outcome.response ⟨s, reason, body⟩)).result =
        Except.error (RequestError.httpError s reason body (synthMessage s reason)) ∧
      (APIClient.request baseUrl method endpoint qp jb
        (Outcome.response ⟨s, reason, body⟩)).log =
        [failLogLine endpoint (synthMessage s reason)] ∧
      (∀ raw, extractMessage (Body.malformed raw) = none) := by
  have hc : 400 ≤ s ∧ s < 600 := ⟨h4, h6⟩
  refine ⟨?_, ?_, fun raw => rfl⟩ <;>
    simp [APIClient.request, hc, httpErrorMessage, hm]

/-- C2's concrete case: a 500 with an empty body signals an HTTP error
whose message is `"HTTP 500: Internal Server Error"`. -/
theorem request_error_status_message_synthesized_witness :
    400 ≤ 500 ∧ 500 < 600 ∧ extractMessage Body.empty = none ∧
      ((APIClient.request "https://caspio-pricing-proxy-ab30a049961a.herokuapp.com/api"
          "GET" "/pricing-tiers" none none
          (Outcome.response ⟨500, "Internal Server Error", Body.empty⟩)).result =
          Except.error (RequestError.httpError 500 "Internal Server Error" Body.empty
            "HTTP 500: Internal Server Error") ∧
        (APIClient.request "https://caspio-pricing-proxy-ab30a049961a.herokuapp.com/api"
          "GET" "/pricing-tiers" none none
          (Outcome.response ⟨500, "Internal Server Error", Body.empty⟩)).log =
          [failLogLine "/pricing-tiers" "HTTP 500: Internal Server Error"] ∧
        (∀ raw, extractMessage (Body.malformed raw) = none)) := by
  refine ⟨by decide, by decide, rfl, ?_⟩
  have h := request_error_status_message_synthesized
    "https://caspio-pricing-proxy-ab30a049961a.herokuapp.com/api"
    "GET" "/pricing-tiers" none none 500 "Internal Server Error" Body.empty
    (by decide) (by decide) rfl
  have e : synthMessage 500 "Internal Server Error" = "HTTP 500: Internal Server Error" := by decide
  rw [e] at h
  exact h

/-- C6 counterexample: a call whose response has the non-2xx status 305 is
a failure per the claim, but nothing is logged and no error is propagated —
`request` returns `{}` silently. -/
theorem request_no_log_on_305 :
    (APIClient.request "https://caspio-pricing-proxy-ab30a049961a.herokuapp.com/api"
        "GET" "/inventory" none none
        (Outcome.response ⟨305, "Use Proxy", Body.empty⟩)).result =
      Except.ok (Json.obj []) ∧
    (APIClient.request "https://caspio-pricing-proxy-ab30a049961a.herokuapp.com/api"
        "GET" "/inventory" none none
        (Outcome.response ⟨305, "Use Proxy", Body.empty⟩)).log = [] ∧
    ¬(200 ≤ 305 ∧ 305 < 300) := by
  refine ⟨rfl, rfl, by decide⟩

/-- C6 (amended to error statuses 400–599): every failing call — transport
failure or a 4xx/5xx response — propagates an error to the caller and
logs exactly one line containing the endpoint and the error's message
(no failure is swallowed, no fallback value is returned). -/
theorem request_failures_logged_before_propagation (baseUrl method endpoint : String)
    (qp : Option Params) (jb : Option Json) (o : Outcome)
    (h : (∃ cause, o = Outcome.failure cause) ∨
      (∃ resp, o = Outcome.response resp ∧ 400 ≤ resp.statusCode ∧ resp.statusCode < 600)) :
    ∃ err, (APIClient.request baseUrl method endpoint qp jb o).result = Except.error err ∧
      (APIClient.request baseUrl method endpoint qp jb o).log =
        [failLogLine endpoint (errorMessage err)] := by
  rcases h with ⟨cause, rfl⟩ | ⟨resp, rfl, h4, h6⟩
  · exact ⟨RequestError.transportError cause, rfl, rfl⟩
  · have hc : 400 ≤ resp.statusCode ∧ resp.statusCode < 600 := ⟨h4, h6⟩
    refine ⟨RequestError.httpError resp.statusCode resp.reason resp.body
      (httpErrorMessage resp), ?_, ?_⟩ <;>
      simp [APIClient.request, hc, errorMessage]

theorem request_failures_logged_before_propagation_witness :
    ((∃ cause, Outcome.failure "Connection refused" = Outcome.failure cause) ∨
      (∃ resp, Outcome.failure "Connection refused" = Outcome.response resp ∧
        400 ≤ resp.statusCode ∧ resp.statusCode < 600)) ∧
      ∃ err, (APIClient.request "https://caspio-pricing-proxy-ab30a049961a.herokuapp.com/api"
          "POST" "/cart-sessions" none none
          (Outcome.failure "Connection refused")).result = Except.error err ∧
        (APIClient.request "https://caspio-pricing-proxy-ab30a049961a.herokuapp.com/api"
          "POST" "/cart-sessions" none none
          (Outcome.failure "Connection refused")).log =
          [failLogLine "/cart-sessions" (errorMessage err)] :=
  ⟨Or.inl ⟨"Connection refused", rfl⟩,
    request_failures_logged_before_propagation _ _ _ _ _ _
      (Or.inl ⟨"Connection refused", rfl⟩)⟩

theorem findApplicableTier_eq_find? (tiers : List Tier) (quantity : Int) :
    findApplicableTier tiers quantity =
      tiers.find? (fun tier =>
        decide (tier.minQuantity ≤ quantity) && decide (quantity ≤ tier.maxQuantity)) := by
  induction tiers with
  | nil => rfl
  | cons tier rest ih =>
    by_cases h : tier.minQuantity ≤ quantity ∧ quantity ≤ tier.maxQuantity
    · simp [findApplicableTier, List.find?, h.1, h.2]
    · rw [Decidable.not_and_iff_or_not] at h
      rcases h with h | h <;>
        simp [findApplicableTier, List.find?, h, ih]

/-- C10: `calculate_order_price` selects the first tier in list order whose
quantity bounds contain the quantity; when no tier matches, the per-item
decoration cost is 0 unless the decoration type is Embroidery with a
(truthy) stitch count, in which case the embroidery-cost endpoint's value
is used; and the returned `totalCost` is the mean of the base costs per
size (0 when there are none) plus the decoration cost, multiplied by the
quantity. -/
theorem calculate_order_price_spec (baseCosts : List (String × Rat))
    (tiers : List Tier) (embroideryCost : Int → Rat) (decorationType : String)
    (quantity : Int) (stitchCount : Option Int) :
    findApplicableTier tiers quantity =
        tiers.find? (fun tier =>
          decide (tier.minQuantity ≤ quantity) && decide (quantity ≤ tier.maxQuantity)) ∧
      (findApplicableTier tiers quantity = none →
        (calculate_order_price baseCosts tiers embroideryCost decorationType
            quantity stitchCount).decorationCostPerItem =
          (if decorationType = "Embroidery" ∧ stitchCountTruthy stitchCount then
            embroideryCost (stitchCount.getD 0)
          else 0)) ∧
      (calculate_order_price baseCosts tiers embroideryCost decorationType
          quantity stitchCount).baseCostPerItem =
        (if baseCosts = [] then 0
          else (baseCosts.map Prod.snd).sum / (baseCosts.length : Rat)) ∧
      (calculate_order_price baseCosts tiers embroideryCost decorationType
          quantity stitchCount).totalCost =
        ((calculate_order_price baseCosts tiers embroideryCost decorationType
            quantity stitchCount).baseCostPerItem +
          (calculate_order_price baseCosts tiers embroideryCost decorationType
            quantity stitchCount).decorationCostPerItem) * (quantity : Rat) := by
  refine ⟨findApplicableTier_eq_find? tiers quantity, fun hnone => ?_, rfl, rfl⟩
  simp [calculate_order_price, hnone]

theorem calculate_order_price_spec_witness :
    findApplicableTier [Tier.mk 1 10 2, Tier.mk 11 20 (3/2)] 50 = none ∧
      (findApplicableTier [Tier.mk 1 10 2, Tier.mk 11 20 (3/2)] 50 =
          [Tier.mk 1 10 2, Tier.mk 11 20 (3/2)].find? (fun tier =>
            decide (tier.minQuantity ≤ 50) && decide (50 ≤ tier.maxQuantity)) ∧
        (findApplicableTier [Tier.mk 1 10 2, Tier.mk 11 20 (3/2)] 50 = none →
          (calculate_order_price [("S", 5), ("M", 7)] [Tier.mk 1 10 2, Tier.mk 11 20 (3/2)]
              (fun _ => 0) "DTG" 50 none).decorationCostPerItem =
            (if ("DTG" : String) = "Embroidery" ∧ stitchCountTruthy none then
              (fun _ : Int => (0 : Rat)) ((none : Option Int).getD 0)
            else 0)) ∧
        (calculate_order_price [("S", 5), ("M", 7)] [Tier.mk 1 10 2, Tier.mk 11 20 (3/2)]
            (fun _ => 0) "DTG" 50 none).baseCostPerItem =
          (if ([("S", 5), ("M", 7)] : List (String × Rat)) = [] then 0
            else (([("S", 5), ("M", 7)] : List (String × Rat)).map Prod.snd).sum /
              (([("S", 5), ("M", 7)] : List (String × Rat)).length : Rat)) ∧
        (calculate_order_price [("S", 5), ("M", 7)] [Tier.mk 1 10 2, Tier.mk 11 20 (3/2)]
            (fun _ => 0) "DTG" 50 none).totalCost =
          ((calculate_order_price [("S", 5), ("M", 7)] [Tier.mk 1 10 2, Tier.mk 11 20 (3/2)]
              (fun _ => 0) "DTG" 50 none).baseCostPerItem +
            (calculate_order_price [("S", 5), ("M", 7)] [Tier.mk 1 10 2, Tier.mk 11 20 (3/2)]
              (fun _ => 0) "DTG" 50 none).decorationCostPerItem) * ((50 : Int) : Rat)) :=
  ⟨by decide,
    calculate_order_price_spec [("S", 5), ("M", 7)] [Tier.mk 1 10 2, Tier.mk 11 20 (3/2)]
      (fun _ => 0) "DTG" 50 none⟩

theorem char_toNat_ofNat (n : Nat) (h : Nat.isValidChar n) : (Char.ofNat n).toNat = n := by
  unfold Char.ofNat Char.ofNatAux
  split
  · rfl
  · exact absurd h (by assumption)

theorem char_toNat_lt (c : Char) : c.toNat < 1114112 := by
  have h := c.valid
  have e : Char.toNat c = c.val.toNat := rfl
  rcases h with h | h <;> omega

theorem char_isValidChar_toNat (c : Char) : Nat.isValidChar c.toNat := by
  have h := c.valid
  have e : Char.toNat c = c.val.toNat := rfl
  rcases h with h | h
  · exact Or.inl (by omega)
  · exact Or.inr ⟨by omega, by omega⟩

theorem hexDigitVal_hexDigitChar : ∀ n < 16, hexDigitVal (hexDigitChar n) = some n := by
  decide

set_option maxRecDepth 4096 in
theorem safeByte_facts : ∀ b < 256, safeByte b = true →
    b < 128 ∧ b ≠ 37 ∧ b ≠ 43 ∧ b ≠ 38 ∧ b ≠ 61 ∧ b ≠ 32 := by
  decide

set_option maxRecDepth 4096 in
theorem encodeByteChars_no_sep : ∀ b < 256,
    '&' ∉ encodeByteChars b ∧ '=' ∉ encodeByteChars b := by
  decide

theorem percentDecode_encodeByteChars (b : Nat) (hb : b < 256) (rest : List Char) :
    percentDecode (encodeByteChars b ++ rest) =
      (percentDecode rest).map (fun bs => b :: bs) := by
  by_cases h32 : b = 32
  · subst h32
    rw [encodeByteChars, if_pos rfl, List.singleton_append, percentDecode.eq_def]
    simp
  · by_cases hsafe : safeByte b
    · obtain ⟨hlt, h37, h43, _, _, _⟩ := safeByte_facts b hb hsafe
      have hvalid : Nat.isValidChar b := Or.inl (by omega)
      have htn : (Char.ofNat b).toNat = b := char_toNat_ofNat b hvalid
      have hne37 : Char.ofNat b ≠ '%' := by
        intro h
        rw [h] at htn
        exact h37 htn.symm
      have hne43 : Char.ofNat b ≠ '+' := by
        intro h
        rw [h] at htn
        exact h43 htn.symm
      rw [encodeByteChars, if_neg h32, if_pos hsafe, List.singleton_append,
        percentDecode.eq_def]
      simp [hne37, hne43, htn, hlt]
    · have hd : b / 16 < 16 := by omega
      have hm : b % 16 < 16 := by omega
      have h1 : hexDigitVal (hexDigitChar (b / 16)) = some (b / 16) :=
        hexDigitVal_hexDigitChar _ hd
      have h2 : hexDigitVal (hexDigitChar (b % 16)) = some (b % 16) :=
        hexDigitVal_hexDigitChar _ hm
      have hre : 16 * (b / 16) + b % 16 = b := by omega
      rw [encodeByteChars, if_neg h32, if_neg (by simp [hsafe])]
      rw [List.cons_append, List.cons_append, List.cons_append,
        percentDecode.eq_def]
      simp [h1, h2, hre]

theorem percentDecode_percentEncodeBytes (bs : List Nat) (h : ∀ b ∈ bs, b < 256)
    (rest : List Char) :
    percentDecode (percentEncodeBytes bs ++ rest) =
      (percentDecode rest).map (fun tail => bs ++ tail) := by
  induction bs with
  | nil =>
    simp [percentEncodeBytes]
  | cons b bs ih =>
    have hb : b < 256 := h b (List.mem_cons_self b bs)
    have hbs : ∀ x ∈ bs, x < 256 := fun x hx => h x (List.mem_cons_of_mem b hx)
    rw [percentEncodeBytes, List.flatMap_cons, List.append_assoc,
      percentDecode_encodeByteChars b hb, ← percentEncodeBytes, ih hbs]
    cases percentDecode rest <;> rfl

theorem utf8Bytes_lt (c : Char) : ∀ b ∈ utf8Bytes c, b < 256 := by
  have hc := char_toNat_lt c
  intro b hb
  rw [utf8Bytes] at hb
  split at hb <;> [skip; split at hb] <;> [skip; skip; split at hb] <;>
    simp at hb <;> omega

theorem utf8DecodeOne_utf8Bytes (c : Char) (rest : List Nat) :
    utf8DecodeOne (utf8Bytes c ++ rest) = some (c, rest) := by
  have hval : Nat.isValidChar c.toNat := char_isValidChar_toNat c
  have hlt : c.toNat < 1114112 := char_toNat_lt c
  have hofn : Char.ofNat c.toNat = c := Char.ofNat_toNat c
  rw [utf8Bytes]
  by_cases h1 : c.toNat < 0x80
  · rw [if_pos h1, List.singleton_append, utf8DecodeOne, if_pos h1, hofn]
  · by_cases h2 : c.toNat < 0x800
    · rw [if_neg h1, if_pos h2, List.cons_append, List.cons_append,
        utf8DecodeOne, if_neg (by omega), if_neg (by omega), if_pos (by omega),
        utf8DecodeTwo, if_pos (by omega)]
      simp only []
      rw [if_pos (by omega)]
      have hre : (0xC0 + c.toNat / 64 - 0xC0) * 64 + (0x80 + c.toNat % 64 - 0x80) = c.toNat := by
        omega
      rw [hre, hofn, List.nil_append]
    · by_cases h3 : c.toNat < 0x10000
      · rw [if_neg h1, if_neg h2, if_pos h3, List.cons_append, List.cons_append,
          List.cons_append, utf8DecodeOne, if_neg (by omega), if_neg (by omega),
          if_neg (by omega), if_pos (by omega), utf8DecodeThree,
          if_pos (by constructor <;> omega)]
        simp only []
        have hre : (0xE0 + c.toNat / 4096 - 0xE0) * 4096 +
            (0x80 + c.toNat / 64 % 64 - 0x80) * 64 + (0x80 + c.toNat % 64 - 0x80) =
            c.toNat := by
          omega
        rw [hre, if_pos ⟨by omega, hval⟩, hofn, List.nil_append]
      · rw [if_neg h1, if_neg h2, if_neg h3, List.cons_append, List.cons_append,
          List.cons_append, List.cons_append, utf8DecodeOne, if_neg (by omega),
          if_neg (by omega), if_neg (by omega), if_neg (by omega),
          if_pos (by omega), utf8DecodeFour,
          if_pos (by refine ⟨⟨?_, ?_⟩, ⟨?_, ?_⟩, ?_, ?_⟩ <;> omega)]
        simp only []
        have hre : (0xF0 + c.toNat / 262144 - 0xF0) * 262144 +
            (0x80 + c.toNat / 4096 % 64 - 0x80) * 4096 +
            (0x80 + c.toNat / 64 % 64 - 0x80) * 64 + (0x80 + c.toNat % 64 - 0x80) =
            c.toNat := by
          omega
        rw [hre, if_pos ⟨by omega, hval⟩, hofn, List.nil_append]

theorem utf8Bytes_ne_nil (c : Char) : utf8Bytes c ≠ [] := by
  rw [utf8Bytes]
  split_ifs <;> simp

theorem utf8Decode_char (c : Char) (bs : List Nat) :
    utf8Decode (utf8Bytes c ++ bs) = (utf8Decode bs).map (fun cs => c :: cs) := by
  have hne : utf8Bytes c ++ bs ≠ [] := by
    intro h
    exact utf8Bytes_ne_nil c (List.append_eq_nil.mp h).1
  rw [utf8Decode.eq_def, if_neg hne]
  split
  · rename_i cr h
    rw [utf8DecodeOne_utf8Bytes] at h
    cases h
    rfl
  · rename_i h
    rw [utf8DecodeOne_utf8Bytes] at h
    cases h

theorem utf8Decode_utf8Encode (cs : List Char) (bs : List Nat) :
    utf8Decode (utf8Encode cs ++ bs) = (utf8Decode bs).map (fun tail => cs ++ tail) := by
  induction cs with
  | nil =>
    simp [utf8Encode]
  | cons c cs ih =>
    rw [utf8Encode, List.flatMap_cons, List.append_assoc, utf8Decode_char,
      ← utf8Encode, ih]
    cases utf8Decode bs <;> rfl

theorem unquoteChars_quoteChars (cs : List Char) :
    unquoteChars (quoteChars cs) = some cs := by
  have hb : ∀ b ∈ utf8Encode cs, b < 256 := by
    intro b hb
    rw [utf8Encode] at hb
    obtain ⟨c, _, hc⟩ := List.mem_flatMap.mp hb
    exact utf8Bytes_lt c b hc
  rw [unquoteChars, quoteChars]
  have h1 : percentDecode (percentEncodeBytes (utf8Encode cs)) = some (utf8Encode cs) := by
    have := percentDecode_percentEncodeBytes (utf8Encode cs) hb []
    simpa [percentDecode] using this
  have h2 : utf8Decode (utf8Encode cs) = some cs := by
    have he := utf8Decode_utf8Encode cs []
    rw [List.append_nil] at he
    rw [he, utf8Decode.eq_def]
    simp
  rw [h1]
  simpa using h2

theorem string_mk_data : ∀ s : String, String.mk s.data = s
  | ⟨_⟩ => rfl

theorem quoteChars_no_sep (cs : List Char) :
    '&' ∉ quoteChars cs ∧ '=' ∉ quoteChars cs := by
  have key : ∀ x ∈ quoteChars cs, x ≠ '&' ∧ x ≠ '=' := by
    intro x hx
    rw [quoteChars, percentEncodeBytes] at hx
    obtain ⟨b, hb, hxb⟩ := List.mem_flatMap.mp hx
    have hblt : b < 256 := by
      rw [utf8Encode] at hb
      obtain ⟨c, _, hc⟩ := List.mem_flatMap.mp hb
      exact utf8Bytes_lt c b hc
    obtain ⟨hamp, heq⟩ := encodeByteChars_no_sep b hblt
    exact ⟨fun h => hamp (h ▸ hxb), fun h => heq (h ▸ hxb)⟩
  exact ⟨fun h => (key '&' h).1 rfl, fun h => (key '=' h).2 rfl⟩

theorem pieceChars_no_amp (k v : String) : '&' ∉ pieceChars k v := by
  rw [pieceChars]
  intro h
  rcases List.mem_append.mp h with h | h
  · exact (quoteChars_no_sep k.data).1 h
  · rcases List.mem_cons.mp h with h | h
    · exact absurd h.symm (by decide)
    · exact (quoteChars_no_sep v.data).1 h

theorem pieceChars_splitOn (k v : String) :
    (pieceChars k v).splitOn '=' = [quoteChars k.data, quoteChars v.data] := by
  have hk : ∀ x ∈ quoteChars k.data, ¬((x == '=') = true) := by
    intro x hx h
    exact (quoteChars_no_sep k.data).2 (eq_of_beq h ▸ hx)
  have hv : ∀ x ∈ quoteChars v.data, ¬((x == '=') = true) := by
    intro x hx h
    exact (quoteChars_no_sep v.data).2 (eq_of_beq h ▸ hx)
  rw [pieceChars, List.splitOn, List.splitOnP_first _ _ hk '=' (by simp),
    List.splitOnP_eq_single _ _ hv]

theorem parsePiece_pieceChars (k v : String) :
    parsePiece (pieceChars k v) = some (k, v) := by
  rw [parsePiece, pieceChars_splitOn]
  simp only [unquoteChars_quoteChars, string_mk_data]

theorem parsePieces_map (l : List (String × String)) :
    parsePieces (l.map (fun kv => pieceChars kv.1 kv.2)) = some l := by
  induction l with
  | nil => rfl
  | cons kv rest ih =>
    rw [List.map_cons, parsePieces, parsePiece_pieceChars, ih]

theorem filter_ne_replicate (k : String) (n : Nat) :
    (List.replicate n k).filter (fun k2 => k2 ≠ k) = [] := by
  induction n with
  | zero => rfl
  | succ n ih => simp [List.replicate_succ, ih]

theorem dedupKeys_replicate_append (k : String) (n : Nat) (hn : 1 ≤ n)
    (t : List String) :
    dedupKeys (List.replicate n k ++ t) =
      k :: dedupKeys (t.filter (fun k2 => k2 ≠ k)) := by
  match n, hn with
  | n + 1, _ =>
    rw [List.replicate_succ, List.cons_append, dedupKeys, List.filter_append,
      filter_ne_replicate]
    rfl

theorem dedupKeys_subset (l : List String) : ∀ x ∈ dedupKeys l, x ∈ l := by
  induction l using dedupKeys.induct with
  | case1 =>
    intro x hx
    rw [dedupKeys] at hx
    cases hx
  | case2 k rest ih =>
    intro x hx
    rw [dedupKeys] at hx
    rcases List.mem_cons.mp hx with h | h
    · exact h ▸ List.mem_cons_self _ _
    · exact List.mem_cons_of_mem _ (List.mem_of_mem_filter (ih x h))

theorem valuesFor_append (k : String) (l1 l2 : List (String × String)) :
    valuesFor k (l1 ++ l2) = valuesFor k l1 ++ valuesFor k l2 := by
  rw [valuesFor, valuesFor, valuesFor, List.filterMap_append]

theorem valuesFor_eq_nil (k : String) (l : List (String × String))
    (h : ∀ kv ∈ l, kv.1 ≠ k) : valuesFor k l = [] := by
  rw [valuesFor, List.filterMap_eq_nil_iff]
  intro kv hkv
  rw [if_neg (h kv hkv)]

theorem valuesFor_map_self (k : String) (ss : List String) :
    valuesFor k (ss.map (fun s => (k, s))) = ss := by
  induction ss with
  | nil => rfl
  | cons s rest ih =>
    rw [List.map_cons, valuesFor, List.filterMap_cons]
    rw [valuesFor] at ih
    simp [ih]

theorem flatPairs_key_mem (ps : Params) : ∀ kv ∈ flatPairs ps, kv.1 ∈ ps.map Prod.fst := by
  intro kv hkv
  rw [flatPairs] at hkv
  obtain ⟨p, hp, hkvp⟩ := List.mem_flatMap.mp hkv
  have : kv.1 = p.1 := by
    rcases p with ⟨k, s | ss⟩
    · simp at hkvp
      rw [hkvp]
    · simp at hkvp
      obtain ⟨s, _, hs⟩ := hkvp
      rw [← hs]
  rw [this]
  exact List.mem_map_of_mem Prod.fst hp

theorem groupPairs_flatPairs (ps : Params) (hnd : (ps.map Prod.fst).Nodup)
    (hlen : ∀ p ∈ ps, ∀ ss, p.2 = ParamValue.list ss → 2 ≤ ss.length) :
    groupPairs (flatPairs ps) = ps := by
  induction ps with
  | nil => simp [flatPairs, groupPairs, dedupKeys]
  | cons p ps' ih =>
    obtain ⟨k, v⟩ := p
    rw [List.map_cons, List.nodup_cons] at hnd
    have hk : k ∉ ps'.map Prod.fst := hnd.1
    have hi : groupPairs (flatPairs ps') = ps' :=
      ih hnd.2 (fun q hq => hlen q (List.mem_cons_of_mem _ hq))
    have hknot : ∀ kv ∈ flatPairs ps', kv.1 ≠ k := by
      intro kv hkv he
      exact hk (he ▸ flatPairs_key_mem ps' kv hkv)
    have hfilter : ((flatPairs ps').map Prod.fst).filter (fun k2 => k2 ≠ k) =
        (flatPairs ps').map Prod.fst := by
      rw [List.filter_eq_self]
      intro a ha
      obtain ⟨kv, hkv, hae⟩ := List.mem_map.mp ha
      simpa using hae ▸ hknot kv hkv
    have hvnil : valuesFor k (flatPairs ps') = [] := valuesFor_eq_nil k _ hknot
    have htail : ∀ l : List (String × String),
        (∀ kv ∈ l, kv.1 = k) →
        (List.map (fun k2 => (k2, mkParamValue (valuesFor k2 (l ++ flatPairs ps'))))
            (dedupKeys ((flatPairs ps').map Prod.fst))) =
          groupPairs (flatPairs ps') := by
      intro l hl
      rw [groupPairs]
      refine List.map_congr_left ?_
      intro k2 hk2
      have hk2mem : k2 ∈ (flatPairs ps').map Prod.fst := dedupKeys_subset _ k2 hk2
      have hk2ne : k2 ≠ k := by
        obtain ⟨kv, hkv, hae⟩ := List.mem_map.mp hk2mem
        exact hae ▸ hknot kv hkv
      have hvl : valuesFor k2 l = [] := by
        refine valuesFor_eq_nil k2 l ?_
        intro kv hkv he
        exact hk2ne (he ▸ hl kv hkv)
      rw [valuesFor_append, hvl, List.nil_append]
    rcases v with s | ss
    · have hflat : flatPairs ((k, ParamValue.scalar s) :: ps') =
          [(k, s)] ++ flatPairs ps' := by
        rw [flatPairs, List.flatMap_cons]
        rfl
      rw [hflat, groupPairs, List.map_append]
      have hkeys : ([(k, s)].map Prod.fst) = List.replicate 1 k := rfl
      rw [hkeys, dedupKeys_replicate_append k 1 (by omega), hfilter,
        List.map_cons]
      rw [valuesFor_append, hvnil, List.append_nil]
      have hone : valuesFor k [(k, s)] = [s] := by
        rw [valuesFor, List.filterMap_cons]
        simp
      rw [hone, htail [(k, s)] (by intro kv hkv; simp at hkv; rw [hkv]), hi]
      rfl
    · have h2 : 2 ≤ ss.length :=
        hlen (k, ParamValue.list ss) (List.mem_cons_self _ _) ss rfl
      have hflat : flatPairs ((k, ParamValue.list ss) :: ps') =
          ss.map (fun s => (k, s)) ++ flatPairs ps' := by
        rw [flatPairs, List.flatMap_cons]
        rfl
      rw [hflat, groupPairs, List.map_append]
      have hkeys : ((ss.map (fun s => (k, s))).map Prod.fst) =
          List.replicate ss.length k := by
        rw [List.map_map]
        have : (Prod.fst ∘ fun s => (k, s)) = fun _ : String => k := rfl
        rw [this, List.map_const']
      rw [hkeys, dedupKeys_replicate_append k ss.length (by omega), hfilter,
        List.map_cons]
      rw [valuesFor_append, hvnil, List.append_nil, valuesFor_map_self]
      have hmk : mkParamValue ss = ParamValue.list ss := by
        match ss, h2 with
        | s1 :: s2 :: rest, _ => rfl
      rw [hmk, htail (ss.map (fun s => (k, s)))
        (by intro kv hkv; obtain ⟨s, _, hs⟩ := List.mem_map.mp hkv; rw [← hs]), hi]

theorem decodeQuery_encodeParams_flat (ps : Params) (hne : flatPairs ps ≠ []) :
    decodeQuery (encodeParams ps) = some (groupPairs (flatPairs ps)) := by
  have hx : ∀ l ∈ (flatPairs ps).map (fun kv => pieceChars kv.1 kv.2), '&' ∉ l := by
    intro l hl
    obtain ⟨kv, _, hkv⟩ := List.mem_map.mp hl
    exact hkv ▸ pieceChars_no_amp kv.1 kv.2
  have hls : (flatPairs ps).map (fun kv => pieceChars kv.1 kv.2) ≠ [] := by
    intro h
    exact hne (List.map_eq_nil_iff.mp h)
  have hdata : (encodeParams ps).data =
      List.intercalate ['&'] ((flatPairs ps).map (fun kv => pieceChars kv.1 kv.2)) := rfl
  rw [decodeQuery, hdata, List.splitOn_intercalate _ '&' hx hls, parsePieces_map]
  rfl

/-- C9 counterexample: the mapping `{category: ["A"]}` contains a
list-valued entry, but its query string `category=A` decodes back to the
scalar entry `{category: "A"}`, not to the original mapping (an empty list
value likewise vanishes from the query string entirely), so the round-trip
fails as universally stated. -/
theorem queryParams_roundTrip_fails_on_singleton_list :
    decodeQuery (encodeParams [("category", ParamValue.list ["A"])]) =
      some [("category", ParamValue.scalar "A")] ∧
    (some [("category", ParamValue.scalar "A")] : Option Params) ≠
      some [("category", ParamValue.list ["A"])] := by
  constructor
  · have hne : flatPairs [("category", ParamValue.list ["A"])] ≠ [] := by
      decide
    rw [decodeQuery_encodeParams_flat _ hne]
    have hflat : flatPairs [("category", ParamValue.list ["A"])] =
        [("category", "A")] := rfl
    rw [hflat, groupPairs]
    have hkeys : List.map Prod.fst [("category", "A")] = ["category"] := rfl
    rw [hkeys, dedupKeys, List.filter_nil, dedupKeys]
    simp [valuesFor, mkParamValue]
  · simp

/-- C9 (amended: keys are distinct — a Python dict guarantees that — and
every list value has at least two elements; one-element and zero-element
lists are exactly the cases the counterexample rules out): list-valued
query parameters serialize as repeated keys (`{category: ["A","B"]}`
becomes `category=A&category=B`), and decoding the encoded query string
recovers the original mapping. -/
theorem queryParams_repeated_keys_roundTrip (ps : Params)
    (hnd : (ps.map Prod.fst).Nodup)
    (hlen : ∀ p ∈ ps, ∀ ss, p.2 = ParamValue.list ss → 2 ≤ ss.length)
    (hlist : ∃ p ∈ ps, ∃ ss, p.2 = ParamValue.list ss) :
    encodeParams [("category", ParamValue.list ["A", "B"])] = "category=A&category=B" ∧
      decodeQuery (encodeParams ps) = some ps := by
  constructor
  · decide
  · have hne : flatPairs ps ≠ [] := by
      obtain ⟨p, hp, ss, hss⟩ := hlist
      have h2 : 2 ≤ ss.length := hlen p hp ss hss
      obtain ⟨k, v⟩ := p
      simp only at hss
      subst hss
      match ss, h2 with
      | s1 :: stail, _ =>
        have hmem : (k, s1) ∈ flatPairs ps := by
          rw [flatPairs]
          refine List.mem_flatMap.mpr ⟨(k, ParamValue.list (s1 :: stail)), hp, ?_⟩
          simp
        exact List.ne_nil_of_mem hmem
    rw [decodeQuery_encodeParams_flat ps hne, groupPairs_flatPairs ps hnd hlen]

theorem queryParams_repeated_keys_roundTrip_witness :
    (([("q", ParamValue.scalar "polo"), ("category", ParamValue.list ["A", "B"])].map
        Prod.fst).Nodup) ∧
      (∀ p ∈ [("q", ParamValue.scalar "polo"), ("category", ParamValue.list ["A", "B"])],
        ∀ ss, p.2 = ParamValue.list ss → 2 ≤ ss.length) ∧
      (∃ p ∈ [("q", ParamValue.scalar "polo"), ("category", ParamValue.list ["A", "B"])],
        ∃ ss, p.2 = ParamValue.list ss) ∧
      (encodeParams [("category", ParamValue.list ["A", "B"])] = "category=A&category=B" ∧
        decodeQuery (encodeParams
          [("q", ParamValue.scalar "polo"), ("category", ParamValue.list ["A", "B"])]) =
          some [("q", ParamValue.scalar "polo"), ("category", ParamValue.list ["A", "B"])]) := by
  have hnd : (([("q", ParamValue.scalar "polo"),
      ("category", ParamValue.list ["A", "B"])].map Prod.fst).Nodup) := by
    decide
  have hlen : ∀ p ∈ [("q", ParamValue.scalar "polo"),
      ("category", ParamValue.list ["A", "B"])],
      ∀ ss, p.2 = ParamValue.list ss → 2 ≤ ss.length := by
    intro p hp ss hss
    rcases List.mem_cons.mp hp with h | h
    · subst h
      simp at hss
    · rcases List.mem_cons.mp h with h | h
      · subst h
        simp only at hss
        cases hss
        decide
      · cases h
  have hlist : ∃ p ∈ [("q", ParamValue.scalar "polo"),
      ("category", ParamValue.list ["A", "B"])], ∃ ss, p.2 = ParamValue.list ss :=
    ⟨("category", ParamValue.list ["A", "B"]), by simp, ["A", "B"], rfl⟩
  exact ⟨hnd, hlen, hlist, queryParams_repeated_keys_roundTrip _ hnd hlen hlist⟩
